import Mathlib

/-!
Verification of the SPARQL scalar-expression evaluator
(`rdflib/plugins/sparql/operators.py`).

The Python module is shallowly embedded: RDF terms are a tagged union,
rdflib literals carry a lexical form, an optional datatype IRI and an
optional language tag, and every fallible operation returns an
`Except SPARQLErr` value.  Machine numbers of the source (Python `int`,
`decimal.Decimal`, `float`) are modelled exactly: integers as `Int`,
decimals and finite floats as a scaled integer `m / 10 ^ k` (Python's
`Decimal` is itself a scaled integer; binary rounding of finite float
values is out of scope and they are carried exactly), with `NaN` and
signed infinities as explicit constructors.
-/

/-- Errors of the evaluator: `SPARQLTypeError`, `SPARQLError`, and a plain
Python exception escaping the module (a crash, not a SPARQL error). -/
inductive SPARQLErr
  | typeErr (msg : String)
  | sparqlErr (msg : String)
  | pyErr (msg : String)
deriving DecidableEq

deriving instance DecidableEq for Except

/-- An rdflib `Literal`: lexical form, optional datatype IRI, optional
language tag. -/
structure RLiteral where
  lexical : String
  datatype : Option String
  language : Option String
deriving DecidableEq

/-- An RDF term (`URIRef`, `BNode` or `Literal`). -/
inductive RTerm
  | uri (s : String)
  | bnode (s : String)
  | lit (l : RLiteral)
deriving DecidableEq

/-- The XSD namespace, as rdflib's `XSD` namespace object spells it: an
attribute access `XSD.foo` yields the IRI `...XMLSchema#foo`, whether or
not `foo` is a datatype XML Schema defines. -/
def xsdNS : String := "http://www.w3.org/2001/XMLSchema#"

namespace XSD

def boolean : String := xsdNS ++ "boolean"

def string : String := xsdNS ++ "string"

def integer : String := xsdNS ++ "integer"

def decimal : String := xsdNS ++ "decimal"

def float : String := xsdNS ++ "float"

def double : String := xsdNS ++ "double"

def nonPositiveInteger : String := xsdNS ++ "nonPositiveInteger"

def negativeInteger : String := xsdNS ++ "negativeInteger"

def nonNegativeInteger : String := xsdNS ++ "nonNegativeInteger"

def positiveInteger : String := xsdNS ++ "positiveInteger"

def unsignedLong : String := xsdNS ++ "unsignedLong"

def unsignedInt : String := xsdNS ++ "unsignedInt"

def unsignedShort : String := xsdNS ++ "unsignedShort"

def unsignedByte : String := xsdNS ++ "unsignedByte"

def long : String := xsdNS ++ "long"

def int : String := xsdNS ++ "int"

def short : String := xsdNS ++ "short"

def byte : String := xsdNS ++ "byte"

def date : String := xsdNS ++ "date"

def time : String := xsdNS ++ "time"

def dateTime : String := xsdNS ++ "dateTime"

def duration : String := xsdNS ++ "duration"

def dayTimeDuration : String := xsdNS ++ "dayTimeDuration"

def yearMonthDuration : String := xsdNS ++ "yearMonthDuration"

/-- `XSD.Duration` with a capital D, exactly as `isCompatibleDateTimeDatatype`
writes it: the rdflib namespace object happily produces this IRI, but it is
not the datatype `xsd:duration` of any duration literal. -/
def Duration : String := xsdNS ++ "Duration"

end XSD

/-- A Python `float` value as far as the evaluator observes it: `NaN`, a
signed infinity, or a finite value carried exactly as `m / 10 ^ k`. -/
inductive PyFloat
  | nan
  | inf (neg : Bool)
  | fin (m : ℤ) (k : ℕ)
deriving DecidableEq

/-- A Python number as extracted from a numeric literal: `int`,
`decimal.Decimal` (a scaled integer `m / 10 ^ k`), or `float`. -/
inductive PyNum
  | int (n : ℤ)
  | dec (m : ℤ) (k : ℕ)
  | flt (f : PyFloat)
deriving DecidableEq

/-- What `Literal.toPython()` can return: a bool, a number, a string, some
parsed date/time/duration object, or — when the literal's datatype has no
converter or its lexical form does not parse — the literal object itself. -/
inductive PyVal
  | vbool (b : Bool)
  | vnum (n : PyNum)
  | vstr (s : String)
  | vdatetime
  | vlit (l : RLiteral)
deriving DecidableEq

/-- The numeric value of a decimal digit. -/
def digitVal? (c : Char) : Option ℕ :=
  if c.isDigit then some (c.toNat - 48) else none

/-- Reads a (possibly empty) run of decimal digits as a number; `none` if a
non-digit occurs. -/
def digitsOnly? (cs : List Char) : Option ℕ :=
  cs.foldl
    (fun acc c =>
      match acc, digitVal? c with
      | some a, some d => some (a * 10 + d)
      | _, _ => none)
    (some 0)

/-- A nonempty all-digit run as a number. -/
def digitsToNat? (cs : List Char) : Option ℕ :=
  match cs with
  | [] => none
  | _ => digitsOnly? cs

/-- An optionally signed nonempty digit run as an integer. -/
def parseIntegerChars (cs : List Char) : Option ℤ :=
  match cs with
  | '-' :: rest => (digitsToNat? rest).map (fun n => -(n : ℤ))
  | '+' :: rest => (digitsToNat? rest).map (fun n => (n : ℤ))
  | rest => (digitsToNat? rest).map (fun n => (n : ℤ))

/-- Modelled from the spec: parsing of an integer lexical form (the term
model's "literal lexical-form parsing" for numeric subtypes, not part of
operators.py). -/
def parseIntegerLex (s : String) : Option ℤ :=
  parseIntegerChars s.data

/-- Splits a character list at the first `'.'`. -/
def splitAtDot : List Char → List Char × Option (List Char)
  | [] => ([], none)
  | '.' :: rest => ([], some rest)
  | c :: rest =>
    match splitAtDot rest with
    | (pre, tl) => (c :: pre, tl)

/-- Splits a character list at the first `'e'` or `'E'`. -/
def splitAtExpChar : List Char → List Char × Option (List Char)
  | [] => ([], none)
  | 'e' :: rest => ([], some rest)
  | 'E' :: rest => ([], some rest)
  | c :: rest =>
    match splitAtExpChar rest with
    | (pre, tl) => (c :: pre, tl)

/-- An unsigned decimal digit string with optional point, as mantissa and
scale: `"2.5"` becomes `(25, 1)`. -/
def parseUnsignedDecimal? (cs : List Char) : Option (ℕ × ℕ) :=
  match splitAtDot cs with
  | (intPart, none) =>
    if intPart.isEmpty then none
    else (digitsOnly? intPart).map (fun n => (n, 0))
  | (intPart, some fracPart) =>
    if fracPart.contains '.' then none
    else if intPart.isEmpty && fracPart.isEmpty then none
    else
      match digitsOnly? intPart, digitsOnly? fracPart with
      | some a, some b => some (a * 10 ^ fracPart.length + b, fracPart.length)
      | _, _ => none

/-- Modelled from the spec: parsing of an `xsd:decimal` lexical form into
`Decimal`'s scaled-integer value (exponent forms out of scope — the XSD
lexical space has none). -/
def parseDecimalLex (s : String) : Option (ℤ × ℕ) :=
  match s.data with
  | '-' :: rest => (parseUnsignedDecimal? rest).map (fun p => (-(p.1 : ℤ), p.2))
  | '+' :: rest => (parseUnsignedDecimal? rest).map (fun p => ((p.1 : ℤ), p.2))
  | rest => (parseUnsignedDecimal? rest).map (fun p => ((p.1 : ℤ), p.2))

/-- Applies a base-10 exponent to a scaled integer `m / 10 ^ k`. -/
def scaleByExp (m : ℤ) (k : ℕ) (e : ℤ) : ℤ × ℕ :=
  if 0 ≤ e then
    let en := e.toNat
    if k ≤ en then (m * 10 ^ (en - k), 0) else (m, k - en)
  else (m, k + (-e).toNat)

/-- Modelled from the spec: parsing of an `xsd:float` / `xsd:double` lexical
form with Python's `float()`; `NaN` and infinities are explicit, finite
values are carried exactly. -/
def parseFloatLex (s : String) : Option PyFloat :=
  if s = "NaN" ∨ s = "nan" then some .nan
  else if s = "INF" ∨ s = "+INF" ∨ s = "Infinity" ∨ s = "inf" then some (.inf false)
  else if s = "-INF" ∨ s = "-Infinity" ∨ s = "-inf" then some (.inf true)
  else
    match s.data with
    | cs =>
      let signedTail : Bool × List Char :=
        match cs with
        | '-' :: rest => (true, rest)
        | '+' :: rest => (false, rest)
        | rest => (false, rest)
      match splitAtExpChar signedTail.2 with
      | (mantCs, expCs) =>
        let e? : Option ℤ :=
          match expCs with
          | none => some 0
          | some ecs => parseIntegerChars ecs
        match parseUnsignedDecimal? mantCs, e? with
        | some (m, k), some e =>
          let m2 : ℤ := if signedTail.1 then -(m : ℤ) else (m : ℤ)
          match scaleByExp m2 k e with
          | (m3, k3) => some (.fin m3 k3)
        | _, _ => none

/-- Modelled from the spec: parsing of an `xsd:boolean` lexical form. -/
def parseBooleanLex (s : String) : Option Bool :=
  if s = "true" ∨ s = "1" then some true
  else if s = "false" ∨ s = "0" then some false
  else none

/-- The XSD datatypes rdflib converts to Python `int`. -/
def integerDatatypes : List String :=
  [XSD.integer, XSD.nonPositiveInteger, XSD.negativeInteger,
   XSD.nonNegativeInteger, XSD.positiveInteger, XSD.unsignedLong,
   XSD.unsignedInt, XSD.unsignedShort, XSD.unsignedByte, XSD.long, XSD.int,
   XSD.short, XSD.byte]

/-- The XSD date/time datatypes (rdflib's `XSD_DateTime_DTs`). -/
def dateTimeDatatypes : List String := [XSD.dateTime, XSD.date, XSD.time]

/-- The XSD duration datatypes (rdflib's `XSD_Duration_DTs`). -/
def durationDatatypes : List String :=
  [XSD.duration, XSD.dayTimeDuration, XSD.yearMonthDuration]

/-- Modelled from the spec: rdflib's `Literal.toPython()` — value extraction
of the term model for the datatypes the evaluator coerces.  A failed or
absent conversion returns the literal itself. -/
def toPython (l : RLiteral) : PyVal :=
  match l.datatype with
  | none => .vstr l.lexical
  | some dt =>
    if dt = XSD.boolean then
      match parseBooleanLex l.lexical with
      | some b => .vbool b
      | none => .vlit l
    else if dt = XSD.string then .vstr l.lexical
    else if integerDatatypes.contains dt then
      match parseIntegerLex l.lexical with
      | some n => .vnum (.int n)
      | none => .vlit l
    else if dt = XSD.decimal then
      match parseDecimalLex l.lexical with
      | some p => .vnum (.dec p.1 p.2)
      | none => .vlit l
    else if dt = XSD.float ∨ dt = XSD.double then
      match parseFloatLex l.lexical with
      | some f => .vnum (.flt f)
      | none => .vlit l
    else if dateTimeDatatypes.contains dt ∨ durationDatatypes.contains dt then
      .vdatetime
    else .vlit l

/-- Python truthiness, `bool(x)`, of an extracted value.  Note
`bool(float("nan"))` is `True` in Python, and a parsed date/time object is
always truthy. -/
def pyTruthy : PyVal → Bool
  | .vbool b => b
  | .vnum (.int n) => decide (n ≠ 0)
  | .vnum (.dec m _) => decide (m ≠ 0)
  | .vnum (.flt .nan) => true
  | .vnum (.flt (.inf _)) => true
  | .vnum (.flt (.fin m _)) => decide (m ≠ 0)
  | .vstr s => decide (0 < s.length)
  | .vdatetime => true
  | .vlit l => decide (0 < l.lexical.length)

/-- `EBV` (operators.py lines 1132-1174).  A boolean-typed literal returns
its parsed value (an ill-formed boolean returns the literal object itself,
which callers use in boolean context — truthy iff nonempty, modelled here
directly); a plain or string literal is true iff nonempty; otherwise the
literal is converted, a conversion that yields back a `Literal` raises
`SPARQLTypeError`, and any other converted value is used via `bool(...)`.
Non-literals raise `SPARQLTypeError`. -/
def EBV (rt : RTerm) : Except SPARQLErr Bool :=
  match rt with
  | .lit l =>
    if l.datatype = some XSD.boolean then
      match parseBooleanLex l.lexical with
      | some b => .ok b
      | none => .ok (decide (0 < l.lexical.length))
    else if l.datatype = some XSD.string ∨ l.datatype = none then
      .ok (decide (0 < l.lexical.length))
    else
      match toPython l with
      | .vlit _ => .error (.typeErr "Could not determine the EBV for this literal")
      | v => .ok (pyTruthy v)
  | _ => .error (.typeErr "Only literals have Boolean values!")

/-- Claim C1 (code-level evidence): contrary to the spec's truth table
`EBV(NaN)=false`, the code computes `bool(float("nan"))`, which is `True`:
`EBV("NaN"^^xsd:double)` returns true.  The surrounding rows of the truth
table (`EBV("")`, `EBV("x")`, `EBV(0)`, `EBV(0.0)`, boolean literals, and
the IRI type error) do evaluate as the claim states. -/
theorem EBV_truth_table_nan_divergence :
    EBV (.lit ⟨"NaN", some XSD.double, none⟩) = .ok true ∧
    EBV (.lit ⟨"true", some XSD.boolean, none⟩) = .ok true ∧
    EBV (.lit ⟨"", none, none⟩) = .ok false ∧
    EBV (.lit ⟨"x", none, none⟩) = .ok true ∧
    EBV (.lit ⟨"0", some XSD.integer, none⟩) = .ok false ∧
    EBV (.lit ⟨"0.0", some XSD.double, none⟩) = .ok false ∧
    EBV (.uri "http://example.org/i") =
      .error (.typeErr "Only literals have Boolean values!") := by
  decide

/-- The recognized numeric datatypes, in the order `numeric`
(operators.py lines 1036-1053) lists them. -/
def numericDatatypes : List String :=
  [XSD.float, XSD.double, XSD.decimal, XSD.integer, XSD.nonPositiveInteger,
   XSD.negativeInteger, XSD.nonNegativeInteger, XSD.positiveInteger,
   XSD.unsignedLong, XSD.unsignedInt, XSD.unsignedShort, XSD.unsignedByte,
   XSD.long, XSD.int, XSD.short, XSD.byte]

/-- `numeric` (operators.py lines 1025-1056): raises `SPARQLTypeError` unless
the term is a literal whose datatype is one of the sixteen recognized numeric
datatypes; the value is then `toPython()`.  rdflib returns the unconverted
`Literal` object when the lexical form does not parse, and every caller's
arithmetic then raises a Python error on it; that path is modelled as an
error at extraction. -/
def numeric (expr : RTerm) : Except SPARQLErr PyNum :=
  match expr with
  | .lit l =>
    match l.datatype with
    | some dt =>
      if numericDatatypes.contains dt then
        match toPython l with
        | .vnum n => .ok n
        | _ => .error (.pyErr "ill-formed numeric literal")
      else .error (.typeErr "does not have a numeric datatype")
    | none => .error (.typeErr "does not have a numeric datatype")
  | _ => .error (.typeErr "is not a literal")

/-- The datatype slot of a literal term (`l_.datatype` in the source). -/
def RTerm.litDatatype : RTerm → Option String
  | .lit l => l.datatype
  | _ => none

/-- `abs(...)` on an extracted number; Python `abs` preserves the value's
type and never raises on numbers. -/
def pyAbs : PyNum → PyNum
  | .int n => .int |n|
  | .dec m k => .dec |m| k
  | .flt .nan => .flt .nan
  | .flt (.inf _) => .flt (.inf false)
  | .flt (.fin m k) => .flt (.fin |m| k)

/-- The datatype rdflib's `Literal(value)` constructor infers from the
Python type of `value`: `int` maps to `xsd:integer`, `Decimal` to
`xsd:decimal`, `float` to `xsd:double`. -/
def datatypeOfPyNum : PyNum → String
  | .int _ => XSD.integer
  | .dec _ _ => XSD.decimal
  | .flt _ => XSD.double

/-- `str(Decimal)` of the scaled integer `m / 10 ^ k` in plain decimal
notation. -/
def decimalLexical (m : ℤ) (k : ℕ) : String :=
  if k = 0 then toString m
  else
    let a := m.natAbs
    let p : ℕ := 10 ^ k
    let fpStr := toString (a % p)
    let fpPadded := String.mk (List.replicate (k - fpStr.length) '0') ++ fpStr
    (if m < 0 then "-" else "") ++ toString (a / p) ++ "." ++ fpPadded

/-- `str(float)` (finite values in plain decimal notation; Python's
shortest-roundtrip rendering is out of scope and no claim depends on it). -/
def floatLexical : PyFloat → String
  | .nan => "nan"
  | .inf false => "inf"
  | .inf true => "-inf"
  | .fin m k => decimalLexical m k

/-- `str(value)` of an extracted number, as `Literal(value)` stores it. -/
def lexicalOfPyNum : PyNum → String
  | .int n => toString n
  | .dec m k => decimalLexical m k
  | .flt f => floatLexical f

/-- `Decimal(v).quantize(1, ROUND_HALF_UP)` on the scaled integer
`m / 10 ^ k`: round to the nearest integer, ties away from zero (that is
what Python decimal's `ROUND_HALF_UP` does). -/
def decQuantizeHalfUp (m : ℤ) (k : ℕ) : ℤ :=
  let p : ℤ := 10 ^ k
  if m < 0 then -((2 * (-m) + p) / (2 * p)) else (2 * m + p) / (2 * p)

/-- The quantize step of `Builtin_ROUND`: Python's `Decimal(...)` of `NaN`
or an infinity raises `decimal.InvalidOperation` when quantized. -/
def pyQuantizeHalfUp : PyNum → Except SPARQLErr ℤ
  | .int n => .ok n
  | .dec m k => .ok (decQuantizeHalfUp m k)
  | .flt (.fin m k) => .ok (decQuantizeHalfUp m k)
  | .flt _ => .error (.pyErr "decimal.InvalidOperation")

/-- `math.ceil` of the scaled integer `m / 10 ^ k`. -/
def scaledCeil (m : ℤ) (k : ℕ) : ℤ := -((-m) / 10 ^ k)

/-- `math.floor` of the scaled integer `m / 10 ^ k`. -/
def scaledFloor (m : ℤ) (k : ℕ) : ℤ := m / 10 ^ k

/-- `int(math.ceil(...))` on an extracted number; `math.ceil` raises on
`NaN` (`ValueError`) and infinities (`OverflowError`). -/
def pyCeil : PyNum → Except SPARQLErr ℤ
  | .int n => .ok n
  | .dec m k => .ok (scaledCeil m k)
  | .flt (.fin m k) => .ok (scaledCeil m k)
  | .flt .nan => .error (.pyErr "ValueError: cannot convert float NaN to integer")
  | .flt (.inf _) => .error (.pyErr "OverflowError: cannot convert float infinity to integer")

/-- `int(math.floor(...))` on an extracted number. -/
def pyFloor : PyNum → Except SPARQLErr ℤ
  | .int n => .ok n
  | .dec m k => .ok (scaledFloor m k)
  | .flt (.fin m k) => .ok (scaledFloor m k)
  | .flt .nan => .error (.pyErr "ValueError: cannot convert float NaN to integer")
  | .flt (.inf _) => .error (.pyErr "OverflowError: cannot convert float infinity to integer")

/-- `Builtin_ABS` (operators.py lines 93-98): `Literal(abs(numeric(arg)))`.
Note there is no `datatype=` argument: the result literal's datatype is the
one rdflib infers from the Python type of the computed value, not the
operand's datatype. -/
def Builtin_ABS (arg : RTerm) : Except SPARQLErr RTerm := do
  let v ← numeric arg
  let a := pyAbs v
  return .lit ⟨lexicalOfPyNum a, some (datatypeOfPyNum a), none⟩

/-- `Builtin_CEIL` (operators.py lines 168-174):
`Literal(int(math.ceil(numeric(l_))), datatype=l_.datatype)`. -/
def Builtin_CEIL (arg : RTerm) : Except SPARQLErr RTerm := do
  let v ← numeric arg
  let c ← pyCeil v
  return .lit ⟨toString c, arg.litDatatype, none⟩

/-- `Builtin_FLOOR` (operators.py lines 177-182):
`Literal(int(math.floor(numeric(l_))), datatype=l_.datatype)`. -/
def Builtin_FLOOR (arg : RTerm) : Except SPARQLErr RTerm := do
  let v ← numeric arg
  let c ← pyFloor v
  return .lit ⟨toString c, arg.litDatatype, none⟩

/-- `Builtin_ROUND` (operators.py lines 185-197):
`Literal(int(Decimal(numeric(l_)).quantize(1, ROUND_HALF_UP)),
datatype=l_.datatype)`. -/
def Builtin_ROUND (arg : RTerm) : Except SPARQLErr RTerm := do
  let v ← numeric arg
  let r ← pyQuantizeHalfUp v
  return .lit ⟨toString r, arg.litDatatype, none⟩

/-- The rational value of a finite extracted number. -/
def PyNum.toRat? : PyNum → Option ℚ
  | .int n => some (n : ℚ)
  | .dec m k => some ((m : ℚ) / 10 ^ k)
  | .flt (.fin m k) => some ((m : ℚ) / 10 ^ k)
  | .flt _ => none

/-- Rounding `mz / pz` half-up (toward positive infinity) with integer
arithmetic lands within 1/2 of the value; a tie means the result is the
value plus 1/2. -/
theorem intHalfUpDiv_spec (mz pz : ℤ) (hp : 0 < pz) :
    |(mz : ℚ) / pz - (((2 * mz + pz) / (2 * pz) : ℤ) : ℚ)| ≤ 1 / 2 ∧
    (|(mz : ℚ) / pz - (((2 * mz + pz) / (2 * pz) : ℤ) : ℚ)| = 1 / 2 →
      (((2 * mz + pz) / (2 * pz) : ℤ) : ℚ) = (mz : ℚ) / pz + 1 / 2) := by
  set r : ℤ := (2 * mz + pz) / (2 * pz) with hrdef
  set s : ℤ := (2 * mz + pz) % (2 * pz) with hsdef
  have h2p : (0 : ℤ) < 2 * pz := by positivity
  have key : 2 * pz * r + s = 2 * mz + pz := Int.ediv_add_emod _ _
  have hs0 : (0 : ℤ) ≤ s := Int.emod_nonneg _ (ne_of_gt h2p)
  have hslt : s < 2 * pz := Int.emod_lt_of_pos _ h2p
  have hpQ : (0 : ℚ) < (pz : ℚ) := by exact_mod_cast hp
  have hpne : ((pz : ℚ)) ≠ 0 := ne_of_gt hpQ
  have keyQ : 2 * (pz : ℚ) * r + s = 2 * mz + pz := by exact_mod_cast key
  have hq : (mz : ℚ) / pz - (r : ℚ) = ((s : ℚ) - pz) / (2 * pz) := by
    field_simp
    linear_combination (-(pz : ℚ)) * keyQ
  have hs0Q : (0 : ℚ) ≤ (s : ℚ) := by exact_mod_cast hs0
  have hsltQ : (s : ℚ) < 2 * pz := by exact_mod_cast hslt
  have habs : |(s : ℚ) - pz| ≤ pz := by
    rw [abs_le]
    constructor <;> linarith
  have hbound : |(mz : ℚ) / pz - (r : ℚ)| ≤ 1 / 2 := by
    rw [hq, abs_div, abs_of_pos (by linarith : (0 : ℚ) < 2 * pz)]
    rw [div_le_iff₀ (by linarith : (0 : ℚ) < 2 * pz)]
    linarith
  refine ⟨hbound, fun heq => ?_⟩
  have habs2 : |(s : ℚ) - pz| = pz := by
    rw [hq, abs_div, abs_of_pos (by linarith : (0 : ℚ) < 2 * pz)] at heq
    rw [div_eq_iff (by linarith : (2 : ℚ) * pz ≠ 0)] at heq
    linarith
  have hszero : (s : ℚ) = 0 := by
    rcases (abs_eq (by linarith : (0 : ℚ) ≤ (pz : ℚ))).mp habs2 with h | h
    · linarith
    · linarith
  have hfin : (mz : ℚ) / pz - (r : ℚ) = -(1 / 2) := by
    rw [hq, hszero]
    field_simp
    ring
  linarith

/-- Cast bridge: the rational value of the scale `10 ^ k`. -/
theorem castPow10 (k : ℕ) : (((10 : ℤ) ^ k : ℤ) : ℚ) = (10 : ℚ) ^ k := by
  push_cast
  rfl

/-- Half-up quantization of a nonnegative scaled integer lands within 1/2 of
the value, and a tie means it rounded up (away from zero). -/
theorem decQuantizeHalfUp_nonneg_spec (m : ℤ) (k : ℕ) (hm : 0 ≤ m) :
    |(m : ℚ) / 10 ^ k - (decQuantizeHalfUp m k : ℚ)| ≤ 1 / 2 ∧
    (|(m : ℚ) / 10 ^ k - (decQuantizeHalfUp m k : ℚ)| = 1 / 2 →
      (decQuantizeHalfUp m k : ℚ) = (m : ℚ) / 10 ^ k + 1 / 2) := by
  have hp : (0 : ℤ) < 10 ^ k := pow_pos (by norm_num) k
  have hnot : ¬ m < 0 := not_lt.mpr hm
  have hr : decQuantizeHalfUp m k = (2 * m + 10 ^ k) / (2 * 10 ^ k) := by
    simp [decQuantizeHalfUp, hnot]
  obtain ⟨h1, h2⟩ := intHalfUpDiv_spec m (10 ^ k) hp
  rw [castPow10] at h1 h2
  rw [hr]
  exact ⟨h1, h2⟩

/-- Half-up quantization of a scaled integer is within 1/2 of the value, and
on a tie the result's absolute value exceeds the value's by exactly 1/2
(ties away from zero). -/
theorem decQuantizeHalfUp_spec (m : ℤ) (k : ℕ) :
    |(m : ℚ) / 10 ^ k - (decQuantizeHalfUp m k : ℚ)| ≤ 1 / 2 ∧
    (|(m : ℚ) / 10 ^ k - (decQuantizeHalfUp m k : ℚ)| = 1 / 2 →
      |(decQuantizeHalfUp m k : ℚ)| = |(m : ℚ) / 10 ^ k| + 1 / 2) := by
  rcases le_or_lt 0 m with hm | hm
  · obtain ⟨h1, h2⟩ := decQuantizeHalfUp_nonneg_spec m k hm
    refine ⟨h1, fun heq => ?_⟩
    have hr := h2 heq
    have hq0 : (0 : ℚ) ≤ (m : ℚ) / 10 ^ k := by
      apply div_nonneg
      · exact_mod_cast hm
      · positivity
    rw [hr, abs_of_nonneg (by linarith), abs_of_nonneg hq0]
  · have hmn : (0 : ℤ) ≤ -m := by linarith
    have hneg : decQuantizeHalfUp m k = -(decQuantizeHalfUp (-m) k) := by
      have h1 : ¬ (-m < 0) := not_lt.mpr hmn
      simp [decQuantizeHalfUp, hm, h1]
    obtain ⟨h1, h2⟩ := decQuantizeHalfUp_nonneg_spec (-m) k hmn
    have hqq : (m : ℚ) / 10 ^ k - (decQuantizeHalfUp m k : ℚ) =
        -(((-m : ℤ) : ℚ) / 10 ^ k - (decQuantizeHalfUp (-m) k : ℚ)) := by
      rw [hneg]
      push_cast
      ring
    constructor
    · rw [hqq, abs_neg]
      exact h1
    · intro heq
      rw [hqq, abs_neg] at heq
      have hr := h2 heq
      have hq0 : (0 : ℚ) ≤ ((-m : ℤ) : ℚ) / 10 ^ k := by
        apply div_nonneg
        · exact_mod_cast hmn
        · positivity
      have e1 : |(decQuantizeHalfUp m k : ℚ)| = |(decQuantizeHalfUp (-m) k : ℚ)| := by
        rw [hneg]
        push_cast
        rw [abs_neg]
      have e2 : |(m : ℚ) / 10 ^ k| = |((-m : ℤ) : ℚ) / 10 ^ k| := by
        push_cast
        rw [neg_div, abs_neg]
      rw [e1, e2, hr, abs_of_nonneg (by linarith), abs_of_nonneg hq0]

/-- An integer within 1/2 of a rational is a nearest integer to it. -/
theorem int_nearest_of_le_half (q : ℚ) (r : ℤ) (h : |q - (r : ℚ)| ≤ 1 / 2)
    (z : ℤ) : |q - (r : ℚ)| ≤ |q - (z : ℚ)| := by
  rcases eq_or_ne z r with rfl | hne
  · exact le_refl _
  · have h2 : (1 : ℤ) ≤ |r - z| := Int.one_le_abs (sub_ne_zero.mpr (fun hh => hne hh.symm))
    have h1 : (1 : ℚ) ≤ |(r : ℚ) - (z : ℚ)| := by
      have h3 : ((|r - z| : ℤ) : ℚ) = |(r : ℚ) - (z : ℚ)| := by
        push_cast
        rfl
      rw [← h3]
      exact_mod_cast h2
    have h4 := abs_add (q - (z : ℚ)) ((r : ℚ) - q)
    have h5 : q - (z : ℚ) + ((r : ℚ) - q) = (r : ℚ) - (z : ℚ) := by ring
    rw [h5] at h4
    have h6 : |(r : ℚ) - q| = |q - (r : ℚ)| := abs_sub_comm _ _
    linarith

/-- Bind of a successful `Except` computation. -/
theorem exceptBind_ok {ε α β : Type} (a : α) (f : α → Except ε β) :
    (Except.ok a : Except ε α) >>= f = f a := rfl

/-- Bind of a failed `Except` computation. -/
theorem exceptBind_err {ε α β : Type} (e : ε) (f : α → Except ε β) :
    (Except.error e : Except ε α) >>= f = Except.error e := rfl

/-- `pure` on `Except` is `Except.ok`. -/
theorem exceptPure {ε α : Type} (a : α) :
    (pure a : Except ε α) = Except.ok a := rfl

/-- Claim C6: for every literal operand accepted by `numeric` whose value is
finite with rational value `q`, `Builtin_ROUND` returns the literal of an
integer `r` (carrying the operand's datatype) that is a nearest integer to
`q`, and on a tie (`|q - r| = 1/2`) the result lies away from zero
(`|r| = |q| + 1/2`).  The instances ROUND(2.5)=3, ROUND(-2.5)=-3 and
ROUND(2.4)=2 are in the witness. -/
theorem Builtin_ROUND_half_away_from_zero (l : RLiteral) (v : PyNum) (q : ℚ)
    (h1 : numeric (.lit l) = .ok v) (h2 : v.toRat? = some q) :
    ∃ r : ℤ, pyQuantizeHalfUp v = .ok r ∧
      Builtin_ROUND (.lit l) = .ok (.lit ⟨toString r, l.datatype, none⟩) ∧
      (∀ z : ℤ, |q - (r : ℚ)| ≤ |q - (z : ℚ)|) ∧
      (|q - (r : ℚ)| = 1 / 2 → |(r : ℚ)| = |q| + 1 / 2) := by
  have hrun : ∀ r : ℤ, pyQuantizeHalfUp v = .ok r →
      Builtin_ROUND (.lit l) = .ok (.lit ⟨toString r, l.datatype, none⟩) := by
    intro r hr
    simp only [Builtin_ROUND, h1, exceptBind_ok, hr, exceptPure, RTerm.litDatatype]
  cases v with
  | int n =>
    have hq : q = (n : ℚ) := by
      simpa [PyNum.toRat?] using h2.symm
    refine ⟨n, rfl, hrun n rfl, ?_, ?_⟩
    · intro z
      rw [hq]
      simp
    · intro htie
      exfalso
      rw [hq] at htie
      simp at htie
  | dec m k =>
    have hq : q = (m : ℚ) / 10 ^ k := by
      simpa [PyNum.toRat?] using h2.symm
    obtain ⟨hb, ht⟩ := decQuantizeHalfUp_spec m k
    subst hq
    exact ⟨decQuantizeHalfUp m k, rfl, hrun _ rfl,
      int_nearest_of_le_half _ _ hb, ht⟩
  | flt f =>
    cases f with
    | nan => simp [PyNum.toRat?] at h2
    | inf b => simp [PyNum.toRat?] at h2
    | fin m k =>
      have hq : q = (m : ℚ) / 10 ^ k := by
        simpa [PyNum.toRat?] using h2.symm
      obtain ⟨hb, ht⟩ := decQuantizeHalfUp_spec m k
      subst hq
      exact ⟨decQuantizeHalfUp m k, rfl, hrun _ rfl,
        int_nearest_of_le_half _ _ hb, ht⟩

/-- Claim C6 witness: `ROUND` at the concrete operands 2.5, -2.5 and 2.4
(as `xsd:decimal` literals), each accepted by `numeric`, with the theorem
applied at 2.5. -/
theorem Builtin_ROUND_half_away_from_zero_witness :
    Builtin_ROUND (.lit ⟨"2.5", some XSD.decimal, none⟩) =
      .ok (.lit ⟨"3", some XSD.decimal, none⟩) ∧
    Builtin_ROUND (.lit ⟨"-2.5", some XSD.decimal, none⟩) =
      .ok (.lit ⟨"-3", some XSD.decimal, none⟩) ∧
    Builtin_ROUND (.lit ⟨"2.4", some XSD.decimal, none⟩) =
      .ok (.lit ⟨"2", some XSD.decimal, none⟩) ∧
    (∃ r : ℤ, pyQuantizeHalfUp (.dec 25 1) = .ok r ∧
      Builtin_ROUND (.lit ⟨"2.5", some XSD.decimal, none⟩) =
        .ok (.lit ⟨toString r, some XSD.decimal, none⟩) ∧
      (∀ z : ℤ, |((25 : ℤ) : ℚ) / 10 ^ 1 - (r : ℚ)| ≤ |((25 : ℤ) : ℚ) / 10 ^ 1 - (z : ℚ)|) ∧
      (|((25 : ℤ) : ℚ) / 10 ^ 1 - (r : ℚ)| = 1 / 2 →
        |(r : ℚ)| = |((25 : ℤ) : ℚ) / 10 ^ 1| + 1 / 2)) :=
  ⟨by decide, by decide, by decide,
   Builtin_ROUND_half_away_from_zero ⟨"2.5", some XSD.decimal, none⟩ (.dec 25 1)
     (((25 : ℤ) : ℚ) / 10 ^ 1) (by decide) rfl⟩

/-- Claim C7 counterexample: `Builtin_ABS` of `"-5"^^xsd:byte` yields the
literal `"5"^^xsd:integer` — the inferred datatype of the computed value,
not the operand's original datatype `xsd:byte` as the claim requires. -/
theorem Builtin_ABS_datatype_counterexample :
    Builtin_ABS (.lit ⟨"-5", some XSD.byte, none⟩) =
      .ok (.lit ⟨"5", some XSD.integer, none⟩) ∧
    XSD.integer ≠ XSD.byte := by
  exact ⟨by decide, by decide⟩

/-- Claim C7 (amended): for every literal operand accepted by `numeric`,
`Builtin_CEIL`, `Builtin_FLOOR` and `Builtin_ROUND` return literals carrying
the operand's original datatype (including derived numeric datatypes such as
`xsd:byte`), while `Builtin_ABS` returns a literal whose datatype is the one
rdflib infers from the computed value's Python type (`xsd:integer`,
`xsd:decimal` or `xsd:double`), not the operand's original datatype. -/
theorem numeric_builtins_datatype (l : RLiteral) (v : PyNum)
    (h : numeric (.lit l) = .ok v) :
    (∀ r : RLiteral, Builtin_CEIL (.lit l) = .ok (.lit r) → r.datatype = l.datatype) ∧
    (∀ r : RLiteral, Builtin_FLOOR (.lit l) = .ok (.lit r) → r.datatype = l.datatype) ∧
    (∀ r : RLiteral, Builtin_ROUND (.lit l) = .ok (.lit r) → r.datatype = l.datatype) ∧
    Builtin_ABS (.lit l) =
      .ok (.lit ⟨lexicalOfPyNum (pyAbs v), some (datatypeOfPyNum (pyAbs v)), none⟩) := by
  refine ⟨?_, ?_, ?_, ?_⟩
  · intro r hr
    simp only [Builtin_CEIL, h, exceptBind_ok, RTerm.litDatatype] at hr
    cases hc : pyCeil v with
    | error e =>
      rw [hc] at hr
      rw [exceptBind_err] at hr
      exact Except.noConfusion hr
    | ok c =>
      rw [hc] at hr
      simp only [exceptBind_ok, exceptPure] at hr
      injection hr with h2
      injection h2 with h3
      rw [← h3]
  · intro r hr
    simp only [Builtin_FLOOR, h, exceptBind_ok, RTerm.litDatatype] at hr
    cases hc : pyFloor v with
    | error e =>
      rw [hc] at hr
      rw [exceptBind_err] at hr
      exact Except.noConfusion hr
    | ok c =>
      rw [hc] at hr
      simp only [exceptBind_ok, exceptPure] at hr
      injection hr with h2
      injection h2 with h3
      rw [← h3]
  · intro r hr
    simp only [Builtin_ROUND, h, exceptBind_ok, RTerm.litDatatype] at hr
    cases hc : pyQuantizeHalfUp v with
    | error e =>
      rw [hc] at hr
      rw [exceptBind_err] at hr
      exact Except.noConfusion hr
    | ok c =>
      rw [hc] at hr
      simp only [exceptBind_ok, exceptPure] at hr
      injection hr with h2
      injection h2 with h3
      rw [← h3]
  · simp only [Builtin_ABS, h, exceptBind_ok, exceptPure]

/-- Claim C7 witness: the amended statement at the operand `"-5"^^xsd:byte`,
whose `numeric` extraction succeeds with the Python int -5. -/
theorem numeric_builtins_datatype_witness :
    (∀ r : RLiteral, Builtin_CEIL (.lit ⟨"-5", some XSD.byte, none⟩) = .ok (.lit r) →
      r.datatype = some XSD.byte) ∧
    (∀ r : RLiteral, Builtin_FLOOR (.lit ⟨"-5", some XSD.byte, none⟩) = .ok (.lit r) →
      r.datatype = some XSD.byte) ∧
    (∀ r : RLiteral, Builtin_ROUND (.lit ⟨"-5", some XSD.byte, none⟩) = .ok (.lit r) →
      r.datatype = some XSD.byte) ∧
    Builtin_ABS (.lit ⟨"-5", some XSD.byte, none⟩) =
      .ok (.lit ⟨lexicalOfPyNum (pyAbs (.int (-5))),
                 some (datatypeOfPyNum (pyAbs (.int (-5)))), none⟩) :=
  numeric_builtins_datatype ⟨"-5", some XSD.byte, none⟩ (.int (-5)) (by decide)

/-- A boolean result literal: `Literal(True)` / `Literal(False)`. -/
def boolLiteral (b : Bool) : RLiteral :=
  ⟨if b then "true" else "false", some XSD.boolean, none⟩

/-- An element of the evaluated IN-list.  Modelled from the spec: a list
argument whose evaluation errored is carried as its error, and the
comparison `x == expr` against it raises that error (the loop catches it). -/
inductive InElem
  | term (t : RTerm)
  | err (e : SPARQLErr)
deriving DecidableEq

/-- The right operand of IN / NOT IN: the term `rdf:nil` (an empty SPARQL
list) or the evaluated element list. -/
inductive InArg
  | nilTerm
  | elems (xs : List InElem)
deriving DecidableEq

/-- The scan loop of the IN branch (operators.py lines 861-870): a matching
comparison returns `Literal(True ^ res)` immediately; an erroring comparison
overwrites the single `error` variable; after the loop the recorded error is
raised if there is one, else `Literal(False ^ res)` is returned.  Term
comparison is the structural `==` of the term model. -/
def inScan (res : Bool) (expr : RTerm) :
    List InElem → Option SPARQLErr → Except SPARQLErr RTerm
  | [], none => .ok (.lit (boolLiteral (xor false res)))
  | [], some e => .error e
  | .term t :: rest, acc =>
    if t = expr then .ok (.lit (boolLiteral (xor true res)))
    else inScan res expr rest acc
  | .err e :: rest, _ => inScan res expr rest (some e)

/-- The IN / NOT IN case of `RelationalExpression` (operators.py lines
852-870): `res = (op == "NOT IN")`, `RDF.nil` becomes the empty list, and
the list is scanned with no error recorded yet. -/
def RelationalExpressionIN (op : String) (expr : RTerm) (other : InArg) :
    Except SPARQLErr RTerm :=
  let xs : List InElem :=
    match other with
    | .nilTerm => []
    | .elems l => l
  inScan (decide (op = "NOT IN")) expr xs none

/-- Whether an element compares equal to the left operand (an erroring
element never does). -/
def inElemMatches (expr : RTerm) : InElem → Bool
  | .term t => decide (t = expr)
  | .err _ => false

/-- The error of the last erroring element of the list, if any. -/
def lastScanError (xs : List InElem) : Option SPARQLErr :=
  xs.foldl
    (fun acc x =>
      match x with
      | .err e => some e
      | .term _ => acc)
    none

/-- Logical complement of a boolean result literal. -/
def negateBoolTerm : RTerm → RTerm
  | .lit l =>
    if l = boolLiteral true then .lit (boolLiteral false)
    else if l = boolLiteral false then .lit (boolLiteral true)
    else .lit l
  | t => t

/-- Claim C2 counterexample: `5 IN (error-one, error-two)` with no matching
element raises the error recorded last — the loop body `error = e`
overwrites at every erroring element — and not the first error of the scan,
as the claim states. -/
theorem RelationalExpressionIN_last_error_counterexample :
    RelationalExpressionIN "IN" (.lit ⟨"5", some XSD.integer, none⟩)
      (.elems [.err (.sparqlErr "error one"), .err (.sparqlErr "error two")]) =
      .error (.sparqlErr "error two") ∧
    SPARQLErr.sparqlErr "error two" ≠ .sparqlErr "error one" := by
  exact ⟨by decide, by decide⟩

/-- The scan loop, characterized: any matching element yields
`Literal(True ^ res)`; otherwise the last error (starting from the
accumulator) is raised; otherwise `Literal(False ^ res)`. -/
theorem inScan_eq (res : Bool) (expr : RTerm) :
    ∀ (xs : List InElem) (acc : Option SPARQLErr),
      inScan res expr xs acc =
        if xs.any (inElemMatches expr) then .ok (.lit (boolLiteral (xor true res)))
        else
          match xs.foldl
              (fun a x =>
                match x with
                | .err e => some e
                | .term _ => a)
              acc with
          | some e => .error e
          | none => .ok (.lit (boolLiteral (xor false res))) := by
  intro xs
  induction xs with
  | nil =>
    intro acc
    cases acc <;> simp [inScan]
  | cons hd tl ih =>
    intro acc
    cases hd with
    | term t =>
      by_cases ht : t = expr
      · simp [inScan, ht, List.any_cons, inElemMatches]
      · simp [inScan, ht, List.any_cons, inElemMatches, ih acc]
    | err e =>
      simp [inScan, List.any_cons, inElemMatches, ih (some e)]

/-- Claim C2 (amended): the left operand is compared against the list
elements in order and the result is true as soon as any element compares
equal, even past earlier errors; if no element matches and some comparison
raised, the LAST error encountered during the scan is raised (the loop
overwrites its single error slot); if none raised, the result is false; the
empty list — `rdf:nil` — yields false; and NOT IN is the literal complement
of IN, raising exactly when IN raises. -/
theorem RelationalExpressionIN_spec (expr : RTerm) (xs : List InElem) :
    RelationalExpressionIN "IN" expr (.elems xs) =
      (if xs.any (inElemMatches expr) then .ok (.lit (boolLiteral true))
       else
         match lastScanError xs with
         | some e => .error e
         | none => .ok (.lit (boolLiteral false))) ∧
    RelationalExpressionIN "NOT IN" expr (.elems xs) =
      Except.map negateBoolTerm (RelationalExpressionIN "IN" expr (.elems xs)) ∧
    RelationalExpressionIN "IN" expr .nilTerm = .ok (.lit (boolLiteral false)) ∧
    RelationalExpressionIN "NOT IN" expr .nilTerm = .ok (.lit (boolLiteral true)) := by
  have hin : (decide (("IN" : String) = "NOT IN")) = false := by decide
  have hnotin : (decide (("NOT IN" : String) = "NOT IN")) = true := by decide
  refine ⟨?_, ?_, ?_, ?_⟩
  · rw [RelationalExpressionIN]
    simp only [hin, inScan_eq, lastScanError, Bool.xor_false]
  · rw [RelationalExpressionIN, RelationalExpressionIN]
    simp only [hin, hnotin, inScan_eq]
    by_cases hm : xs.any (inElemMatches expr)
    · simp [hm, Except.map, negateBoolTerm, boolLiteral]
    · simp only [hm, if_false, Bool.false_eq_true, if_neg]
      cases hfold : xs.foldl
          (fun a x =>
            match x with
            | InElem.err e => some e
            | InElem.term _ => a)
          (none : Option SPARQLErr) with
      | none => simp [hfold, Except.map, negateBoolTerm, boolLiteral]
      | some e => simp [hfold, Except.map]
  · rw [RelationalExpressionIN]
    simp [hin, inScan]
  · rw [RelationalExpressionIN]
    simp [hnotin, inScan]

/-- The generator scan of `all(EBV(x) for x in [expr] + other)`: EBVs are
taken left to right; the first false short-circuits `all` to `False`, and a
raised error propagates immediately. -/
def evalAndList : List RTerm → Except SPARQLErr Bool
  | [] => .ok true
  | x :: rest =>
    match EBV x with
    | .error e => .error e
    | .ok false => .ok false
    | .ok true => evalAndList rest

/-- `ConditionalAndExpression` (operators.py lines 908-920): with no
continuation the operand passes through; otherwise the result is
`Literal(all(EBV(x) for x in [expr] + other))`. -/
def ConditionalAndExpression (expr : RTerm) (other : Option (List RTerm)) :
    Except SPARQLErr RTerm :=
  match other with
  | none => .ok expr
  | some xs => (evalAndList (expr :: xs)).map (fun b => .lit (boolLiteral b))

/-- Claim C3 counterexample: `AND(error, false)` raises — the erroring
operand is scanned first and its error surfaces even though a later
operand's EBV is a definite false, where the claim requires the result to
be false. -/
theorem ConditionalAnd_error_before_false_counterexample :
    EBV (.lit (boolLiteral false)) = .ok false ∧
    ConditionalAndExpression (.uri "http://example.org/f")
      (some [.lit (boolLiteral false)]) =
      .error (.typeErr "Only literals have Boolean values!") := by
  exact ⟨by decide, by decide⟩

/-- A prefix of operands with true EBVs does not affect the scan. -/
theorem evalAndList_append_true (pre : List RTerm)
    (hpre : ∀ y ∈ pre, EBV y = .ok true) (rest : List RTerm) :
    evalAndList (pre ++ rest) = evalAndList rest := by
  induction pre with
  | nil => rfl
  | cons a t ih =>
    have ha : EBV a = .ok true := hpre a (by simp)
    have ht : ∀ y ∈ t, EBV y = .ok true := fun y hy => hpre y (by simp [hy])
    simp only [List.cons_append, evalAndList, ha]
    exact ih ht

/-- The scan yields true exactly when every operand's EBV is true. -/
theorem evalAndList_ok_true_iff (xs : List RTerm) :
    evalAndList xs = .ok true ↔ ∀ y ∈ xs, EBV y = .ok true := by
  induction xs with
  | nil => simp [evalAndList]
  | cons a t ih =>
    constructor
    · intro h
      cases he : EBV a with
      | error e =>
        rw [evalAndList, he] at h
        exact absurd h (by simp)
      | ok b =>
        cases b with
        | false =>
          rw [evalAndList, he] at h
          exact absurd h (by simp)
        | true =>
          rw [evalAndList, he] at h
          intro y hy
          rcases List.mem_cons.mp hy with rfl | hy2
          · exact he
          · exact (ih.mp h) y hy2
    · intro h
      have ha : EBV a = .ok true := h a (by simp)
      rw [evalAndList, ha]
      exact ih.mpr (fun y hy => h y (by simp [hy]))

/-- Claim C3 (amended): AND returns true iff every operand's EBV is true；
operands are scanned left to right and the first operand whose EBV is not
true decides the outcome: a false EBV makes the result false (operands after
it, erroring or not, are ignored), while an erroring EBV raises its error
even if a later operand's EBV is a definite false.  A lone operand (no
continuation) passes through unchanged. -/
theorem ConditionalAnd_left_to_right (pre post : List RTerm) (x : RTerm)
    (hpre : ∀ y ∈ pre, EBV y = .ok true) :
    (EBV x = .ok false → evalAndList (pre ++ x :: post) = .ok false) ∧
    (∀ e, EBV x = .error e → evalAndList (pre ++ x :: post) = .error e) ∧
    (∀ xs : List RTerm, evalAndList xs = .ok true ↔ ∀ y ∈ xs, EBV y = .ok true) ∧
    (∀ expr xs, ConditionalAndExpression expr (some xs) =
      (evalAndList (expr :: xs)).map (fun b => .lit (boolLiteral b))) ∧
    (∀ expr, ConditionalAndExpression expr none = .ok expr) := by
  refine ⟨?_, ?_, evalAndList_ok_true_iff, fun expr xs => rfl, fun expr => rfl⟩
  · intro hx
    rw [evalAndList_append_true pre hpre, evalAndList, hx]
  · intro e hx
    rw [evalAndList_append_true pre hpre, evalAndList, hx]

/-- Claim C3 witness: the amended statement with a true-EBV operand first,
an erroring IRI operand as the deciding one, and a false operand after it. -/
theorem ConditionalAnd_left_to_right_witness :
    (EBV (.uri "http://example.org/f") = .ok false →
      evalAndList ([.lit (boolLiteral true)] ++ .uri "http://example.org/f" :: [.lit (boolLiteral false)]) = .ok false) ∧
    (∀ e, EBV (.uri "http://example.org/f") = .error e →
      evalAndList ([.lit (boolLiteral true)] ++ .uri "http://example.org/f" :: [.lit (boolLiteral false)]) = .error e) ∧
    (∀ xs : List RTerm, evalAndList xs = .ok true ↔ ∀ y ∈ xs, EBV y = .ok true) ∧
    (∀ expr xs, ConditionalAndExpression expr (some xs) =
      (evalAndList (expr :: xs)).map (fun b => .lit (boolLiteral b))) ∧
    (∀ expr, ConditionalAndExpression expr none = .ok expr) :=
  ConditionalAnd_left_to_right [.lit (boolLiteral true)] [.lit (boolLiteral false)]
    (.uri "http://example.org/f") (by decide)

/-- `isCompatibleDateTimeDatatype` (operators.py lines 1067-1098).  `obj1`
and `obj2` are the `str(...)` renderings of the parsed Python objects — the
code only inspects `str(obj2)`.  The Python function falls through without
a `return` for several datatype combinations — notably a `date` or `time`
operand with the real general-duration datatype `xsd:duration`, which the
code spells `XSD.Duration` (capital D) — and then returns `None`, modelled
as `none`.  `str(obj2)[1]` on a string of fewer than two characters would
raise an IndexError; a duration rendering always has at least two
characters, and the short case is modelled as a non-match. -/
def isCompatibleDateTimeDatatype (obj1 : String) (dt1 : String)
    (obj2 : String) (dt2 : String) : Option Bool :=
  if dt1 = XSD.date ∧ dt2 = XSD.yearMonthDuration then some true
  else if dt1 = XSD.date ∧ (dt2 = XSD.dayTimeDuration ∨ dt2 = XSD.Duration) then
    some (!(obj2.data.contains 'T'))
  else if dt1 = XSD.time ∧ dt2 = XSD.yearMonthDuration then some false
  else if dt1 = XSD.time ∧ (dt2 = XSD.dayTimeDuration ∨ dt2 = XSD.Duration) then
    some
      (match obj2.data with
       | _ :: c :: _ => decide (c = 'T')
       | _ => false)
  else if dt1 = XSD.dateTime then some true
  else none

/-- A symbolic date/time arithmetic result: the source computes
`obj1 - obj2` or `obj1 + obj2` on the parsed Python objects; the operation
is recorded symbolically (its numeric content matters to no claim). -/
inductive DTArith
  | add (a b : String)
  | sub (a b : String)
deriving DecidableEq

/-- `calculateFinalDateTime` (operators.py lines 1112-1129): proceeds only
when `isCompatibleDateTimeDatatype(...)` is truthy — Python `None` and
`False` both fail the `if` — producing `Literal(obj1 ± obj2,
datatype=dt1)`; otherwise raises. -/
def calculateFinalDateTime (obj1 : String) (dt1 : String) (obj2 : String)
    (dt2 : String) (operation : String) : Except SPARQLErr (DTArith × String) :=
  if (isCompatibleDateTimeDatatype obj1 dt1 obj2 dt2).getD false = true then
    if operation = "-" then .ok (.sub obj1 obj2, dt1)
    else .ok (.add obj1 obj2, dt1)
  else .error (.sparqlErr "Incompatible Data types to DateTime Operations")

/-- Claim C4 (code-level evidence): the general-duration branches compare
the right datatype against `XSD.Duration` (capital D), an IRI that is not
the duration datatype, so a date plus a general `xsd:duration` whose value
has no time component — required by the claim to succeed — falls through
every branch (Python `None`) and `calculateFinalDateTime` raises.  The same
arguments with the misspelled IRI as datatype would be accepted, isolating
the capitalization as the cause; the claim's time/yearMonthDuration row
does raise as stated. -/
theorem calculateFinalDateTime_duration_capitalization :
    isCompatibleDateTimeDatatype "2020-01-01" XSD.date "1 day, 0:00:00"
      XSD.duration = none ∧
    calculateFinalDateTime "2020-01-01" XSD.date "1 day, 0:00:00"
      XSD.duration "+" =
      .error (.sparqlErr "Incompatible Data types to DateTime Operations") ∧
    isCompatibleDateTimeDatatype "2020-01-01" XSD.date "1 day, 0:00:00"
      XSD.Duration = some true ∧
    XSD.duration ≠ XSD.Duration ∧
    isCompatibleDateTimeDatatype "10:00:00" XSD.time "P1Y"
      XSD.yearMonthDuration = some false ∧
    calculateFinalDateTime "10:00:00" XSD.time "P1Y"
      XSD.yearMonthDuration "+" =
      .error (.sparqlErr "Incompatible Data types to DateTime Operations") := by
  refine ⟨by decide, by decide, by decide, by decide, by decide, by decide⟩

/-- Python re module flag constant `re.IGNORECASE`. -/
def reIGNORECASE : ℕ := 2

/-- Python re module flag constant `re.MULTILINE`. -/
def reMULTILINE : ℕ := 8

/-- Python re module flag constant `re.DOTALL`. -/
def reDOTALL : ℕ := 16

/-- Bitwise or on ℕ with explicit fuel (larger than both arguments at every
use, so the base case is never reached). -/
def natOrFuel : ℕ → ℕ → ℕ → ℕ
  | 0, a, b => a + b
  | fuel + 1, a, b =>
    if a = 0 then b
    else if b = 0 then a
    else 2 * natOrFuel fuel (a / 2) (b / 2) +
      (if a % 2 = 1 ∨ b % 2 = 1 then 1 else 0)

/-- Bitwise or on ℕ (Python `|` on flag constants). -/
def natOr (a b : ℕ) : ℕ := natOrFuel (a + b + 1) a b

/-- The XPath-to-re flag map shared by REGEX and REPLACE:
`i` to IGNORECASE, `s` to DOTALL, `m` to MULTILINE, others to 0. -/
def flagMap (c : Char) : ℕ :=
  if c = 'i' then reIGNORECASE
  else if c = 's' then reDOTALL
  else if c = 'm' then reMULTILINE
  else 0

/-- `cFlag`: 0 when `flags` is absent or empty (Python falsiness), else the
bitwise or of the mapped flag characters. -/
def cFlagOf (flags : Option String) : ℕ :=
  match flags with
  | none => 0
  | some f => if f.data.isEmpty then 0 else (f.data.map flagMap).foldl natOr 0

/-- Character comparison, case-folded when the IGNORECASE model bit is set. -/
def charEqCI (ic : Bool) (a b : Char) : Bool :=
  if ic then decide (a.toLower = b.toLower) else decide (a = b)

/-- Does the pattern match at the head of the text? -/
def matchesAt (ic : Bool) : List Char → List Char → Bool
  | [], _ => true
  | _ :: _, [] => false
  | p :: ps, t :: ts => charEqCI ic p t && matchesAt ic ps ts

/-- The scanning loop of `re.sub` for literal patterns, with fuel (at least
the text length plus one at every use, so never exhausted): replaces
left-to-right non-overlapping occurrences, at most `limit` of them
(`none` = unlimited). -/
def reSubGo (ic : Bool) (p repl : List Char) :
    ℕ → Option ℕ → List Char → List Char
  | 0, _, text => text
  | _ + 1, _, [] => []
  | fuel + 1, limit, c :: rest =>
    if limit = some 0 then c :: rest
    else if matchesAt ic p (c :: rest) then
      repl ++ reSubGo ic p repl fuel (limit.map (fun n => n - 1))
        (rest.drop (p.length - 1))
    else c :: reSubGo ic p repl fuel limit rest

/-- Modelled from the spec: Python `re.sub(pattern, repl, string, count,
flags)` restricted to literal (metacharacter-free) patterns and
reference-free replacement strings.  `count` is the FOURTH positional
parameter — the maximum number of occurrences replaced, 0 meaning all —
and matching is case-insensitive exactly when the IGNORECASE bit (value 2)
of `flags` is set.  An empty pattern is out of scope and left unreplaced. -/
def reSub (pattern repl text : String) (count flags : ℕ) : String :=
  let ic := decide (flags / 2 % 2 = 1)
  if pattern.data.isEmpty then text
  else
    String.mk (reSubGo ic pattern.data repl.data (text.data.length + 1)
      (if count = 0 then none else some count) text.data)

/-- The `$N`-to-`\N` conversion of the replacement string
(`re.sub("\\$([0-9]*)", r"\\\1", replacement)`): every dollar sign becomes
a backslash and the digits after it are kept. -/
def dollarToBackslash : List Char → List Char
  | [] => []
  | c :: cs =>
    if c = '$' then Char.ofNat 92 :: dollarToBackslash cs
    else c :: dollarToBackslash cs

/-- `string` (operators.py lines 1013-1022): the argument must be a literal
that is plain, language-tagged, or datatyped `xsd:string`. -/
def stringFn (s : RTerm) : Except SPARQLErr RLiteral :=
  match s with
  | .lit l =>
    match l.datatype with
    | some dt =>
      if dt = XSD.string then .ok l
      else .error (.sparqlErr "Non-string datatype-literal passes as string")
    | none => .ok l
  | _ => .error (.sparqlErr "Non-literal passes as string")

/-- `Builtin_REPLACE` (operators.py lines 223-274): on Python ≥ 3.5 the
replacement is used directly (`compat_r = str(replacement)`), relying on
`re.sub` substituting unmatched groups as the empty string; the `$N`
references are first rewritten to `\N`; the computed `cFlag` is then passed
as the FOURTH positional argument of `re.sub` — which is `count`, not
`flags` — so the flag bits cap the number of substitutions and never reach
the matcher.  The result keeps the text's datatype and language. -/
def Builtin_REPLACE (arg pattern replacement : RTerm) (flags : Option String) :
    Except SPARQLErr RTerm := do
  let text ← stringFn arg
  let p ← stringFn pattern
  let r ← stringFn replacement
  let r2 := String.mk (dollarToBackslash r.lexical.data)
  let cFlag := cFlagOf flags
  return .lit ⟨reSub p.lexical r2 text.lexical cFlag 0, text.datatype, text.language⟩

/-- Claim C5 (code-level evidence): `REPLACE("AAA", "a", "b", "i")` returns
"AAA" unchanged — the IGNORECASE bit computed from the flags is passed as
`re.sub`'s `count` argument, so matching stays case-sensitive — whereas the
claim's flag mapping (the same call with the bit in the `flags` argument)
yields "bbb".  The final conjunct shows what the misplaced argument does
instead: it caps the number of substitutions. -/
theorem Builtin_REPLACE_flags_passed_as_count :
    Builtin_REPLACE (.lit ⟨"AAA", none, none⟩) (.lit ⟨"a", none, none⟩)
      (.lit ⟨"b", none, none⟩) (some "i") = .ok (.lit ⟨"AAA", none, none⟩) ∧
    cFlagOf (some "i") = reIGNORECASE ∧
    reSub "a" "b" "AAA" 0 reIGNORECASE = "bbb" ∧
    reSub "a" "b" "aAaAa" 2 0 = "bAbAa" := by
  refine ⟨by decide, by decide, by decide, by decide⟩

/-- The process-wide custom-function table `_CUSTOM_FUNCTIONS`: a mapping
from function IRI to `(func, raw)`.  Callables are identified abstractly by
a number. -/
abbrev Registry := List (String × ℕ × Bool)

/-- Dict lookup `_CUSTOM_FUNCTIONS.get(uri)`. -/
def regLookup : Registry → String → Option (ℕ × Bool)
  | [], _ => none
  | (k, v) :: rest, uri => if k = uri then some v else regLookup rest uri

/-- Dict assignment `_CUSTOM_FUNCTIONS[uri] = (func, raw)`: replaces an
existing binding in place or appends a new one. -/
def regInsert : Registry → String → ℕ × Bool → Registry
  | [], uri, v => [(uri, v)]
  | (k, w) :: rest, uri, v =>
    if k = uri then (uri, v) :: rest else (k, w) :: regInsert rest uri v

/-- `register_custom_function` (operators.py lines 592-603): raises
`ValueError` iff the uri is already registered and `override` is false;
otherwise (re)binds the uri. -/
def register_custom_function (uri : String) (func : ℕ) (override raw : Bool)
    (reg : Registry) : Except String Registry :=
  if !override && (regLookup reg uri).isSome then
    .error ("A function is already registered as " ++ uri)
  else .ok (regInsert reg uri (func, raw))

/-- How `Function` invokes the registered entry: `func(e, ctx)` for a raw
binding, `func(*e.expr)` for a by-value binding (recorded symbolically: the
claims are about which binding is used, not its result). -/
inductive DispatchCall
  | rawCall (func : ℕ)
  | argCall (func : ℕ)
deriving DecidableEq

/-- `Function` (operators.py lines 624-642): an unregistered IRI raises
"Unknown function"; a registered one is invoked under its recorded calling
convention. -/
def Function (iri : String) (reg : Registry) : Except String DispatchCall :=
  match regLookup reg iri with
  | none => .error ("Unknown function " ++ iri)
  | some (f, raw) => .ok (if raw then .rawCall f else .argCall f)

/-- Looking up the key just bound finds the new binding. -/
theorem regLookup_regInsert (reg : Registry) (uri : String) (v : ℕ × Bool) :
    regLookup (regInsert reg uri v) uri = some v := by
  induction reg with
  | nil => simp [regInsert, regLookup]
  | cons kv rest ih =>
    obtain ⟨k, w⟩ := kv
    by_cases hk : k = uri
    · simp [regInsert, hk, regLookup]
    · simp [regInsert, hk, regLookup, ih]

/-- Claim C9: `register_custom_function` raises exactly when the uri is
already registered and override is false; with `override=true` it rebinds
the uri, and subsequent `Function` dispatch on the uri uses the new binding
(with its calling convention); without override an unregistered uri also
binds and dispatches; and `Function` on an unregistered uri raises the
"Unknown function" error. -/
theorem register_custom_function_spec (reg : Registry) (uri : String)
    (f : ℕ) (raw : Bool) :
    ((∃ msg, register_custom_function uri f false raw reg = .error msg) ↔
      (regLookup reg uri).isSome = true) ∧
    (∃ reg2, register_custom_function uri f true raw reg = .ok reg2 ∧
      Function uri reg2 = .ok (if raw then .rawCall f else .argCall f)) ∧
    (regLookup reg uri = none →
      Function uri reg = .error ("Unknown function " ++ uri)) ∧
    ((regLookup reg uri).isSome = false →
      ∃ reg2, register_custom_function uri f false raw reg = .ok reg2 ∧
        Function uri reg2 = .ok (if raw then .rawCall f else .argCall f)) := by
  refine ⟨?_, ?_, ?_, ?_⟩
  · by_cases h : (regLookup reg uri).isSome
    · simp [register_custom_function, h]
    · simp [register_custom_function, h]
  · refine ⟨regInsert reg uri (f, raw), ?_, ?_⟩
    · simp [register_custom_function]
    · simp [Function, regLookup_regInsert]
  · intro h
    simp [Function, h]
  · intro h
    refine ⟨regInsert reg uri (f, raw), ?_, ?_⟩
    · simp [register_custom_function, h]
    · simp [Function, regLookup_regInsert]

/-- `str.find` on character lists: the first index at which the needle
occurs, `none` where Python returns -1. -/
def findSub (needle : List Char) : List Char → Option ℕ
  | [] => if needle.isPrefixOf [] then some 0 else none
  | c :: t =>
    if needle.isPrefixOf (c :: t) then some 0
    else (findSub needle t).map (fun n => n + 1)

/-- The needle occurs somewhere in the haystack. -/
def OccursIn (needle hay : List Char) : Prop :=
  ∃ i, needle.isPrefixOf (hay.drop i) = true

/-- Occurrence in a cons: at the head or in the tail. -/
theorem occursIn_cons (needle : List Char) (c : Char) (t : List Char) :
    OccursIn needle (c :: t) ↔
      needle.isPrefixOf (c :: t) = true ∨ OccursIn needle t := by
  constructor
  · rintro ⟨i, hi⟩
    cases i with
    | zero => exact Or.inl (by simpa using hi)
    | succ j => exact Or.inr ⟨j, by simpa using hi⟩
  · rintro (h | ⟨i, hi⟩)
    · exact ⟨0, by simpa using h⟩
    · exact ⟨i + 1, by simpa using hi⟩

/-- `find` fails exactly when the needle does not occur. -/
theorem findSub_none_iff (needle hay : List Char) :
    findSub needle hay = none ↔ ¬ OccursIn needle hay := by
  induction hay with
  | nil =>
    by_cases h : needle.isPrefixOf [] = true
    · simp [findSub, h, OccursIn, List.drop_nil]
    · have h2 : needle.isPrefixOf [] = false := Bool.eq_false_iff.mpr h
      simp [findSub, h2, OccursIn, List.drop_nil]
  | cons c t ih =>
    by_cases h : needle.isPrefixOf (c :: t) = true
    · simp [findSub, h, occursIn_cons]
    · have h2 : needle.isPrefixOf (c :: t) = false := Bool.eq_false_iff.mpr h
      simp [findSub, h2, Option.map_eq_none', occursIn_cons, ih]

/-- `_compatibleStrings` (operators.py lines 315-320): both arguments must
pass `string`, and a language-tagged second argument must carry the same
tag as the first. -/
def compatibleStrings (a b : RTerm) : Except SPARQLErr (RLiteral × RLiteral) := do
  let la ← stringFn a
  let lb ← stringFn b
  match lb.language with
  | some _ =>
    if la.language ≠ lb.language then
      .error (.sparqlErr "incompatible arguments to str functions")
    else .ok (la, lb)
  | none => .ok (la, lb)

/-- `Builtin_STRBEFORE` (operators.py lines 347-360): `a.find(b)`; -1 yields
the plain literal `""`, else `a[:i]` with a's language and datatype. -/
def Builtin_STRBEFORE (arg1 arg2 : RTerm) : Except SPARQLErr RTerm := do
  let p ← compatibleStrings arg1 arg2
  match findSub p.2.lexical.data p.1.lexical.data with
  | none => return .lit ⟨"", none, none⟩
  | some i =>
    return .lit ⟨String.mk (p.1.lexical.data.take i), p.1.datatype, p.1.language⟩

/-- `Builtin_STRAFTER` (operators.py lines 363-376): `a.find(b)`; -1 yields
the plain literal `""`, else `a[i + len(b):]` with a's language and
datatype. -/
def Builtin_STRAFTER (arg1 arg2 : RTerm) : Except SPARQLErr RTerm := do
  let p ← compatibleStrings arg1 arg2
  match findSub p.2.lexical.data p.1.lexical.data with
  | none => return .lit ⟨"", none, none⟩
  | some i =>
    return .lit ⟨String.mk (p.1.lexical.data.drop (i + p.2.lexical.data.length)),
      p.1.datatype, p.1.language⟩

/-- Claim C10: for string-compatible literal arguments, STRBEFORE and
STRAFTER return the plain literal `""` — no language tag, no datatype —
when the second argument does not occur in the first, and otherwise return
literals carrying the first argument's language tag and datatype. -/
theorem strbefore_strafter_tags (a b : RLiteral)
    (hc : compatibleStrings (.lit a) (.lit b) = .ok (a, b)) :
    (¬ OccursIn b.lexical.data a.lexical.data →
      Builtin_STRBEFORE (.lit a) (.lit b) = .ok (.lit ⟨"", none, none⟩) ∧
      Builtin_STRAFTER (.lit a) (.lit b) = .ok (.lit ⟨"", none, none⟩)) ∧
    (OccursIn b.lexical.data a.lexical.data →
      (∃ r : RLiteral, Builtin_STRBEFORE (.lit a) (.lit b) = .ok (.lit r) ∧
        r.datatype = a.datatype ∧ r.language = a.language) ∧
      (∃ r : RLiteral, Builtin_STRAFTER (.lit a) (.lit b) = .ok (.lit r) ∧
        r.datatype = a.datatype ∧ r.language = a.language)) := by
  constructor
  · intro hno
    have hfind : findSub b.lexical.data a.lexical.data = none :=
      (findSub_none_iff _ _).mpr hno
    constructor
    · simp [Builtin_STRBEFORE, hc, exceptBind_ok, hfind, exceptPure]
    · simp [Builtin_STRAFTER, hc, exceptBind_ok, hfind, exceptPure]
  · intro hyes
    cases hf : findSub b.lexical.data a.lexical.data with
    | none => exact absurd ((findSub_none_iff _ _).mp hf) (fun hn => hn hyes)
    | some i =>
      constructor
      · refine ⟨⟨String.mk (a.lexical.data.take i), a.datatype, a.language⟩, ?_, rfl, rfl⟩
        simp [Builtin_STRBEFORE, hc, exceptBind_ok, hf, exceptPure]
      · refine ⟨⟨String.mk (a.lexical.data.drop (i + b.lexical.data.length)),
          a.datatype, a.language⟩, ?_, rfl, rfl⟩
        simp [Builtin_STRAFTER, hc, exceptBind_ok, hf, exceptPure]

/-- Claim C10 witness: the statement at `a = "hello"@en`, `b = "ell"`
(compatible strings; the needle occurs). -/
theorem strbefore_strafter_tags_witness :
    (¬ OccursIn ("ell" : String).data ("hello" : String).data →
      Builtin_STRBEFORE (.lit ⟨"hello", none, some "en"⟩) (.lit ⟨"ell", none, none⟩) =
        .ok (.lit ⟨"", none, none⟩) ∧
      Builtin_STRAFTER (.lit ⟨"hello", none, some "en"⟩) (.lit ⟨"ell", none, none⟩) =
        .ok (.lit ⟨"", none, none⟩)) ∧
    (OccursIn ("ell" : String).data ("hello" : String).data →
      (∃ r : RLiteral, Builtin_STRBEFORE (.lit ⟨"hello", none, some "en"⟩)
          (.lit ⟨"ell", none, none⟩) = .ok (.lit r) ∧
        r.datatype = none ∧ r.language = some "en") ∧
      (∃ r : RLiteral, Builtin_STRAFTER (.lit ⟨"hello", none, some "en"⟩)
          (.lit ⟨"ell", none, none⟩) = .ok (.lit r) ∧
        r.datatype = none ∧ r.language = some "en")) :=
  strbefore_strafter_tags ⟨"hello", none, some "en"⟩ ⟨"ell", none, none⟩ (by decide)

/-- A Python parse-tree value as `simplify` traverses it: `None`, an opaque
non-CompValue atom (a term, a string, an operator name…), a Python `list`,
a pyparsing `ParseResults`, or a `CompValue` — a named node with a dict of
slots. -/
inductive SE
  | leafNone : SE
  | atom : ℕ → SE
  | listE : List SE → SE
  | pr : List SE → SE
  | comp : String → List (String × SE) → SE

/-- Slot access on a CompValue (`expr[k]`; first binding wins, as in a
dict). -/
def getSlot : List (String × SE) → String → Option SE
  | [], _ => none
  | (k, v) :: rest, key => if k = key then some v else getSlot rest key

/-- Is the value Python `None`? -/
def isNoneSE : SE → Bool
  | .leafNone => true
  | _ => false

/-- `expr.other is None`: the attribute access yields None when the slot is
absent or holds None. -/
def otherIsNone (slots : List (String × SE)) : Bool :=
  match getSlot slots "other" with
  | none => true
  | some .leafNone => true
  | some _ => false

/-- `expr.name.endswith("Expression")`, as a computable suffix test on the
character list. -/
def strEndsWithExpr (name : String) : Bool :=
  List.isSuffixOf "Expression".data name.data

mutual

/-- `simplify` (operators.py lines 968-985): a `ParseResults` of length one
unwraps to its simplified element; lists and longer `ParseResults` become
Python lists of simplified elements; non-CompValues pass through; a
CompValue whose name ends in "Expression" and whose `other` slot is None is
replaced by the simplification of its `expr` slot (realized here as the
lookup of "expr" among the simplified slots; `simplify_comp_unwrap` below
proves this equal to the source's `simplify(expr.expr)`); any other
CompValue gets every slot simplified in place. -/
def simplify : SE → SE
  | .leafNone => .leafNone
  | .atom n => .atom n
  | .pr [x] => simplify x
  | .pr xs => .listE (simplifyList xs)
  | .listE xs => .listE (simplifyList xs)
  | .comp name slots =>
    if strEndsWithExpr name && otherIsNone slots then
      match getSlot (simplifySlots slots) "expr" with
      | some v => v
      | none => .leafNone
    else .comp name (simplifySlots slots)

/-- `list(map(simplify, ...))` over the elements of a list node. -/
def simplifyList : List SE → List SE
  | [] => []
  | x :: xs => simplify x :: simplifyList xs

/-- The slot loop `for k in expr.keys(): expr[k] = simplify(expr[k])`. -/
def simplifySlots : List (String × SE) → List (String × SE)
  | [] => []
  | (k, v) :: rest => (k, simplify v) :: simplifySlots rest

end

mutual

/-- Trees on which `simplify` is idempotent (see
`simplify_idempotent_of_good`): no Expression-named node may carry a
non-None `other` slot whose value itself simplifies to None — on such a
node the first pass only turns `other` into None and a second pass then
unwraps it (see the counterexample `simplify_not_idempotent`). -/
def good : SE → Bool
  | .leafNone => true
  | .atom _ => true
  | .listE xs => goodList xs
  | .pr xs => goodList xs
  | .comp name slots =>
    goodSlots slots &&
      (if strEndsWithExpr name && !(otherIsNone slots) then
        match getSlot slots "other" with
        | some v => !(isNoneSE (simplify v))
        | none => true
      else true)

/-- `good` on every element of a list node. -/
def goodList : List SE → Bool
  | [] => true
  | x :: xs => good x && goodList xs

/-- `good` on every slot value of a CompValue. -/
def goodSlots : List (String × SE) → Bool
  | [] => true
  | kv :: rest => good kv.2 && goodSlots rest

end

/-- Slot lookup after simplifying all slots finds the simplified value. -/
theorem getSlot_simplifySlots (s : List (String × SE)) (key : String) :
    getSlot (simplifySlots s) key = (getSlot s key).map simplify := by
  induction s with
  | nil => rfl
  | cons kv rest ih =>
    obtain ⟨k, v⟩ := kv
    by_cases hk : k = key
    · simp [simplifySlots, getSlot, hk]
    · simp [simplifySlots, getSlot, hk, ih]

/-- A non-None `other` slot holds some value that is not None. -/
theorem otherIsNone_false_elim (slots : List (String × SE))
    (h : otherIsNone slots = false) :
    ∃ v, getSlot slots "other" = some v ∧ isNoneSE v = false := by
  unfold otherIsNone at h
  cases hg : getSlot slots "other" with
  | none =>
    rw [hg] at h
    exact absurd h (by simp)
  | some v =>
    rw [hg] at h
    refine ⟨v, rfl, ?_⟩
    cases v with
    | leafNone => exact absurd h (by simp)
    | atom n => rfl
    | listE xs => rfl
    | pr xs => rfl
    | comp name slots2 => rfl

mutual

/-- On good trees a second simplification pass changes nothing. -/
theorem simplify_idem : ∀ T : SE, good T = true →
    simplify (simplify T) = simplify T
  | .leafNone, _ => rfl
  | .atom _, _ => rfl
  | .pr [x], h => by
    have hx : good x = true := by
      have h2 : (good x && goodList []) = true := h
      exact (Bool.and_eq_true _ _ ▸ h2).1
    show simplify (simplify x) = simplify x
    exact simplify_idem x hx
  | .pr [], _ => rfl
  | .pr (a :: b :: t), h => by
    have h2 : goodList (a :: b :: t) = true := h
    show SE.listE (simplifyList (simplifyList (a :: b :: t))) =
      .listE (simplifyList (a :: b :: t))
    rw [simplifyList_idem (a :: b :: t) h2]
  | .listE xs, h => by
    have h2 : goodList xs = true := h
    show SE.listE (simplifyList (simplifyList xs)) = .listE (simplifyList xs)
    rw [simplifyList_idem xs h2]
  | .comp name slots, h => by
    have h2 : (goodSlots slots &&
        (if strEndsWithExpr name && !(otherIsNone slots) then
          match getSlot slots "other" with
          | some v => !(isNoneSE (simplify v))
          | none => true
        else true)) = true := h
    have hs : goodSlots slots = true := (Bool.and_eq_true _ _ ▸ h2).1
    have hcond := (Bool.and_eq_true _ _ ▸ h2).2
    by_cases hc : (strEndsWithExpr name && otherIsNone slots) = true
    · have hs1 : simplify (.comp name slots) =
          (match getSlot (simplifySlots slots) "expr" with
           | some v => v
           | none => .leafNone) := by
        simp only [simplify]
        rw [if_pos hc]
      cases hx : getSlot slots "expr" with
      | none =>
        have hg : getSlot (simplifySlots slots) "expr" = none := by
          rw [getSlot_simplifySlots, hx]
          rfl
        rw [hs1, hg]
        rfl
      | some w =>
        have hg : getSlot (simplifySlots slots) "expr" = some (simplify w) := by
          rw [getSlot_simplifySlots, hx]
          rfl
        rw [hs1, hg]
        exact (simplifySlots_idem slots hs).2 "expr" w hx
    · have hs1 : simplify (.comp name slots) = .comp name (simplifySlots slots) := by
        simp only [simplify]
        rw [if_neg hc]
      have hc2 : ¬ ((strEndsWithExpr name && otherIsNone (simplifySlots slots)) = true) := by
        cases hew : strEndsWithExpr name with
        | false => simp [hew]
        | true =>
          have hoin : otherIsNone slots = false := by
            cases hx : otherIsNone slots with
            | false => rfl
            | true => exact absurd (by rw [hew, hx]; rfl) hc
          obtain ⟨v, hv, hvne⟩ := otherIsNone_false_elim slots hoin
          have hcondv : isNoneSE (simplify v) = false := by
            rw [hew, hoin] at hcond
            simp only [Bool.not_false, Bool.and_true, if_pos] at hcond
            rw [hv] at hcond
            simp only [Bool.not_eq_true'] at hcond
            exact hcond
          have hnot : otherIsNone (simplifySlots slots) = false := by
            unfold otherIsNone
            rw [getSlot_simplifySlots, hv, Option.map_some']
            cases hsv : simplify v with
            | leafNone =>
              rw [hsv] at hcondv
              exact absurd hcondv (by simp [isNoneSE])
            | atom n => rfl
            | listE xs => rfl
            | pr xs => rfl
            | comp n2 s2 => rfl
          simp [hew, hnot]
      have hs2 : simplify (.comp name (simplifySlots slots)) =
          .comp name (simplifySlots (simplifySlots slots)) := by
        simp only [simplify]
        rw [if_neg hc2]
      rw [hs1, hs2, (simplifySlots_idem slots hs).1]

/-- Elementwise idempotence over list nodes. -/
theorem simplifyList_idem : ∀ xs : List SE, goodList xs = true →
    simplifyList (simplifyList xs) = simplifyList xs
  | [], _ => rfl
  | x :: t, h => by
    have hx : good x = true := by
      have h2 : (good x && goodList t) = true := h
      exact (Bool.and_eq_true _ _ ▸ h2).1
    have ht : goodList t = true := by
      have h2 : (good x && goodList t) = true := h
      exact (Bool.and_eq_true _ _ ▸ h2).2
    show simplify (simplify x) :: simplifyList (simplifyList t) =
      simplify x :: simplifyList t
    rw [simplify_idem x hx, simplifyList_idem t ht]

/-- Slotwise idempotence, together with idempotence at every slot value
reachable by lookup. -/
theorem simplifySlots_idem : ∀ s : List (String × SE), goodSlots s = true →
    simplifySlots (simplifySlots s) = simplifySlots s ∧
    (∀ key w, getSlot s key = some w → simplify (simplify w) = simplify w)
  | [], _ => by
    refine ⟨rfl, ?_⟩
    intro key w hw
    exact absurd hw (by simp [getSlot])
  | (k, v) :: rest, h => by
    have hv : good v = true := by
      have h2 : (good v && goodSlots rest) = true := h
      exact (Bool.and_eq_true _ _ ▸ h2).1
    have hrest : goodSlots rest = true := by
      have h2 : (good v && goodSlots rest) = true := h
      exact (Bool.and_eq_true _ _ ▸ h2).2
    have main := simplify_idem v hv
    have ih := simplifySlots_idem rest hrest
    constructor
    · show (k, simplify (simplify v)) :: simplifySlots (simplifySlots rest) =
        (k, simplify v) :: simplifySlots rest
      rw [main, ih.1]
    · intro key w hw
      by_cases hk : k = key
      · have hvw : some v = some w := by
          have h3 : getSlot ((k, v) :: rest) key = some v := by
            simp [getSlot, hk]
          rw [← h3, hw]
        have h4 : v = w := Option.some.inj hvw
        rw [← h4]
        exact main
      · have hw2 : getSlot rest key = some w := by
          have h3 : getSlot ((k, v) :: rest) key = getSlot rest key := by
            simp [getSlot, hk]
          rw [← h3, hw]
        exact ih.2 key w hw2

end

/-- The "expr" slot of a CompValue, None when absent (`expr.expr`). -/
def exprSlotOrNone (slots : List (String × SE)) : SE :=
  match getSlot slots "expr" with
  | some v => v
  | none => .leafNone

/-- The unwrap case of `simplify` equals the source's phrasing: a CompValue
named `*Expression` whose `other` slot is None is replaced by
`simplify(expr.expr)` — looking "expr" up among the simplified slots
coincides with simplifying the slot value directly. -/
theorem simplify_comp_unwrap (name : String) (slots : List (String × SE))
    (h : (strEndsWithExpr name && otherIsNone slots) = true) :
    simplify (.comp name slots) = simplify (exprSlotOrNone slots) := by
  have hs1 : simplify (.comp name slots) =
      (match getSlot (simplifySlots slots) "expr" with
       | some v => v
       | none => .leafNone) := by
    simp only [simplify]
    rw [if_pos h]
  rw [hs1, getSlot_simplifySlots]
  cases hx : getSlot slots "expr" with
  | none => simp [exprSlotOrNone, hx, simplify]
  | some w => simp [exprSlotOrNone, hx]

/-- Claim C8 counterexample: `simplify` is not idempotent on every tree.  On
a wrapper whose `other` slot holds an Expression node that itself
simplifies to None (here an empty CompValue named "BExpression", both of
whose `expr` and `other` slots are absent), the first pass only turns the
`other` slot into None, and the second pass then unwraps the wrapper. -/
theorem simplify_not_idempotent :
    simplify (SE.comp "AExpression"
        [("expr", .atom 0), ("other", .comp "BExpression" [])]) =
      SE.comp "AExpression" [("expr", .atom 0), ("other", .leafNone)] ∧
    simplify (simplify (SE.comp "AExpression"
        [("expr", .atom 0), ("other", .comp "BExpression" [])])) = .atom 0 ∧
    SE.comp "AExpression" [("expr", .atom 0), ("other", .leafNone)] ≠ .atom 0 :=
  ⟨rfl, rfl, fun h => SE.noConfusion h⟩

/-- Claim C8 (amended): `simplify` recurses into every slot of every node
and replaces each chain-operator wrapper (name ending in "Expression")
whose `other` slot is None with the simplification of its inner `expr`
slot; it is idempotent on every tree in which no Expression-named node
carries a non-None `other` slot whose value simplifies to None (in
particular on all trees free of such collapsing continuations);
`simplify(simplify T) = simplify T` fails for general `T`, as
`simplify_not_idempotent` shows. -/
theorem simplify_idempotent_of_good (T : SE) (h : good T = true) :
    simplify (simplify T) = simplify T ∧
    (∀ name slots, (strEndsWithExpr name && otherIsNone slots) = true →
      simplify (.comp name slots) = simplify (exprSlotOrNone slots)) :=
  ⟨simplify_idem T h, fun name slots hc => simplify_comp_unwrap name slots hc⟩

/-- Claim C8 witness: the amended statement at a chain wrapper with a
literal `None` continuation slot, a good tree. -/
theorem simplify_idempotent_of_good_witness :
    simplify (simplify (SE.comp "AdditiveExpression"
        [("expr", .atom 1), ("other", .leafNone)])) =
      simplify (SE.comp "AdditiveExpression"
        [("expr", .atom 1), ("other", .leafNone)]) ∧
    (∀ name slots, (strEndsWithExpr name && otherIsNone slots) = true →
      simplify (.comp name slots) = simplify (exprSlotOrNone slots)) :=
  simplify_idempotent_of_good
    (SE.comp "AdditiveExpression" [("expr", .atom 1), ("other", .leafNone)]) rfl
